import Mathlib

/-!
Verification development for the swagger-convert repository: a shallow
embedding of the Swagger 2.0 → OpenAPI 3.x conversion core
(src/spec/mod.rs, definition.rs, path.rs, response.rs, security.rs,
server.rs) together with theorems about the conversion.

Modelling conventions:
* serde_json::Value is modelled by the inductive Json.
* HashMap / BTreeMap are modelled by association lists of key/value
  pairs (iteration in key order for BTreeMap; the conversions only map
  over entries, so only the entry multiset and order matter).
* f64 values are carried by the converter but never computed on; they
  are modelled by an opaque token type F64.
* A Rust panic (the only one reachable after parse is the
  value.items.unwrap() in the From impl for ParameterGeneric in
  src/spec/path.rs) is modelled by Option: none means the process
  aborts. Fallible conversions (TryFrom) return Except inside Option.
* The target object model (the utoipa openapi crate) is a plain data
  model; its structures are embedded with exactly the fields the
  converter sets. Builder methods just set fields, except nullable,
  whose semantics is modelled from the spec (see nullableWiden).
-/

/-- JSON values (model of serde_json::Value). -/
inductive Json where
  | null
  | bool (b : Bool)
  | str (s : String)
  | num (n : Int)
  | arr (elems : List Json)
  | obj (fields : List (String × Json))
deriving Repr

/-- Opaque stand-in for f64 constraint values: the converter only moves
them, never computes on them. -/
structure F64 where
  tok : Nat
deriving DecidableEq, Repr

/-- as_bool of serde_json::Value. -/
def Json.asBool : Json → Option Bool
  | .bool b => some b
  | _ => none

namespace openapi

/-- utoipa Type (the primitive type names of the target schema dialect).
Named Ty because Type is reserved in Lean. -/
inductive Ty where
  | string
  | integer
  | number
  | boolean
  | array
  | object
  | null
deriving DecidableEq, Repr

/-- utoipa schema::SchemaType: a single type, a set of types, or any. -/
inductive SchemaType where
  | type (t : Ty)
  | array (ts : List Ty)
  | anyValue
deriving DecidableEq, Repr

/-- utoipa openapi::Ref (only the ref_location field is used by the
converter). -/
structure Ref where
  refLocation : String
deriving DecidableEq, Repr

/-- utoipa openapi::RefOr. -/
inductive RefOr (α : Type) where
  | ref (r : Ref)
  | t (v : α)
deriving DecidableEq, Repr

/-- utoipa openapi::Server (only the url field is set by the converter). -/
structure Server where
  url : String
deriving DecidableEq, Repr

/-- Opaque carried values of the target object model: the converter never
inspects them, it only moves them. -/
structure Info where
  raw : Json
deriving Repr

/-- Opaque carried tag value. -/
structure Tag where
  raw : Json
deriving Repr

/-- Opaque carried external-docs value. -/
structure ExternalDocs where
  raw : Json
deriving Repr

/-- Opaque carried security-requirement value. -/
structure SecurityRequirement where
  raw : Json
deriving Repr

/-- utoipa openapi::Deprecated. -/
inductive Deprecated where
  | true
  | false
deriving DecidableEq, Repr

/-- utoipa openapi::Required. -/
inductive Required where
  | true
  | false
deriving DecidableEq, Repr

/-- Opaque carried schema-format value. -/
structure SchemaFormat where
  raw : String
deriving DecidableEq, Repr

/-- Opaque carried xml value. -/
structure Xml where
  raw : Json
deriving Repr

/-- Target-side extensions map (utoipa extensions::Extensions). -/
def Extensions := List (String × Json)

end openapi

/-- Swagger protocol schemes (src/spec/server.rs). -/
inductive ProtocolSchemes where
  | http
  | https
  | ws
  | wss
deriving DecidableEq, Repr

/-- The scheme part of a synthesized server url
(the match inside openapi_servers_from_host, src/spec/server.rs). -/
def ProtocolSchemes.schemeStr : ProtocolSchemes → String
  | .http => "http"
  | .https => "https"
  | .ws => "ws"
  | .wss => "wss"

/-- openapi_servers_from_host (src/spec/server.rs, lines 14-35):
absent host or absent schemes gives None; otherwise one server per
declared scheme, in order, with url scheme://host base-path,
base-path defaulting to "/". -/
def openapi_servers_from_host (schemes : Option (List ProtocolSchemes))
    (host : Option String) (basePath : Option String) :
    Option (List openapi.Server) := do
  let host ← host
  let schemes ← schemes
  let servers := schemes.map fun s =>
    let bp := basePath.getD "/"
    openapi.Server.mk (s.schemeStr ++ "://" ++ host ++ bp)
  return servers

/-- Split of a character list at a separator character, with the
semantics of Rust str::split: the empty input yields one empty piece,
and a trailing separator yields a trailing empty piece. -/
def splitOnChar (c : Char) : List Char → List (List Char)
  | [] => [[]]
  | x :: xs =>
    let rest := splitOnChar c xs
    if x = c then [] :: rest
    else
      match rest with
      | [] => [[x]]
      | r :: rs => (x :: r) :: rs

/-- Rust str::split over a String (always yields at least one piece). -/
def strSplit (sep : Char) (s : String) : List String :=
  (splitOnChar sep s.toList).map String.mk

/-- Joining pieces with a separator string (Itertools intersperse
followed by collect). -/
def strJoin (sep : String) : List String → String
  | [] => ""
  | [s] => s
  | s :: rest => s ++ sep ++ strJoin sep rest

/-- RefOr::openapi_ref_location (src/spec/mod.rs, lines 121-131):
split on the slash, skip the first element, map every element equal to
"definitions" to "schemas", and reassemble prefixed by "#" and
"components", interspersed with slashes. -/
def openapi_ref_location (refLocation : String) : String :=
  let segs := (strSplit '/' refLocation).drop 1
  let segs := segs.map fun element =>
    if element = "definitions" then "schemas" else element
  strJoin "/" ("#" :: "components" :: segs)

/-- nullable_or_type (src/spec/mod.rs, lines 220-226). -/
def nullable_or_type (isNullable : Bool) (schemaType : openapi.Ty) :
    openapi.SchemaType :=
  if isNullable then
    openapi.SchemaType.array [schemaType, openapi.Ty.null]
  else
    openapi.SchemaType.type schemaType

/-- Source-side extensions (src/spec/mod.rs): the vendor-prefixed field
bag, modelled as an association list. -/
structure Extensions where
  entries : List (String × Json)
deriving Repr

/-- Extensions::nullable (src/spec/mod.rs, lines 28-33). -/
def Extensions.nullable (e : Extensions) : Bool :=
  (((e.entries.lookup "x-nullable").bind Json.asBool).getD false)

/-- Extensions::into_openapi_extensions (src/spec/mod.rs, lines 35-41):
None when empty, otherwise the entries with the x-nullable key removed. -/
def Extensions.intoOpenapiExtensions (e : Extensions) :
    Option openapi.Extensions :=
  if e.entries.isEmpty then none
  else some (e.entries.filter fun kv => kv.1 ≠ "x-nullable")

namespace openapi

/-- Modelled from the spec: the nullable builder method of the target
object model (the utoipa library, a collaborator outside src/). Per
§4.1 of the spec, a true nullability flag is translated "by widening
the schema's type tag to a two-element type set (declared type plus an
explicit null type) rather than by setting a boolean nullable
attribute"; per §8, when the declared type is already a set the result
contains exactly the declared types and the null type. A false flag
leaves the type tag unchanged. -/
def nullableWiden (isNullable : Bool) (st : SchemaType) : SchemaType :=
  if isNullable then
    match st with
    | .type t => .array [t, .null]
    | .array ts => .array (ts ++ [.null])
    | .anyValue => .anyValue
  else st

/-- utoipa schema::Discriminator (only the property name is set). -/
structure Discriminator where
  propertyName : String
deriving DecidableEq, Repr

/-- utoipa schema::AdditionalProperties. -/
inductive AdditionalProperties (σ : Type) where
  | refOr (r : RefOr σ)
  | freeForm (b : Bool)

/-- Fields of a target array schema that the converter sets
(utoipa schema::Array). -/
structure Array (σ : Type) where
  schemaType : SchemaType
  title : Option String
  items : RefOr σ
  description : Option String
  default : Option Json
  exampleVal : Option Json
  xml : Option Xml
  maxItems : Option Nat
  minItems : Option Nat
  uniqueItems : Bool
  extensions : Option Extensions

/-- Fields of a target object schema that the converter sets
(utoipa schema::Object). -/
structure Object (σ : Type) where
  schemaType : SchemaType
  title : Option String
  format : Option SchemaFormat
  description : Option String
  default : Option Json
  enumValues : Option (List Json)
  exampleVal : Option Json
  readOnly : Option Bool
  xml : Option Xml
  multipleOf : Option F64
  maximum : Option F64
  minimum : Option F64
  exclusiveMaximum : Option F64
  exclusiveMinimum : Option F64
  maxLength : Option Nat
  minLength : Option Nat
  pattern : Option String
  maxProperties : Option Nat
  minProperties : Option Nat
  required : List String
  properties : List (String × RefOr σ)
  additionalProperties : Option (AdditionalProperties σ)
  extensions : Option Extensions

/-- Fields of a target allOf schema that the converter sets
(utoipa schema::AllOf). The allOf shape carries no type tag of its
own; the nullable flag the converter forwards to the builder is
recorded as forwarded data. -/
structure AllOf (σ : Type) where
  items : List (RefOr σ)
  title : Option String
  description : Option String
  default : Option Json
  exampleVal : Option Json
  discriminator : Option Discriminator
  nullable : Bool
  extensions : Option Extensions

/-- utoipa schema::Schema restricted to the variants the converter
produces. -/
inductive Schema where
  | array (a : openapi.Array Schema)
  | object (o : openapi.Object Schema)
  | allOf (a : openapi.AllOf Schema)

/-- The default (empty object) target schema, used as the placeholder
for discarded malformed additionalProperties values
(openapi::Schema::default in utoipa). -/
def Schema.defaultSchema : Schema :=
  .object
    { schemaType := .type .object
      title := none, format := none, description := none, default := none
      enumValues := none, exampleVal := none, readOnly := none, xml := none
      multipleOf := none, maximum := none, minimum := none
      exclusiveMaximum := none, exclusiveMinimum := none
      maxLength := none, minLength := none, pattern := none
      maxProperties := none, minProperties := none
      required := [], properties := [], additionalProperties := none
      extensions := none }

end openapi

namespace spec

/-- Source-side RefOr (src/spec/mod.rs, lines 91-97): a reference
carrying a string pointer, or an inline value. -/
inductive RefOr (α : Type) where
  | ref (refLocation : String)
  | t (v : α)

/-- Source-side AdditionalProperties (src/spec/mod.rs, lines 134-141):
reference-or-schema, boolean free-form flag, or any untyped map. -/
inductive AdditionalProperties (α : Type) where
  | refOr (r : RefOr α)
  | freeForm (b : Bool)
  | any (m : List (String × Json))

/-- Source array schema variant (src/spec/definition.rs, Array). -/
structure Array (σ : Type) where
  schemaType : openapi.SchemaType
  title : Option String
  items : RefOr σ
  description : Option String
  exampleVal : Option Json
  default : Option Json
  maxItems : Option Nat
  minItems : Option Nat
  uniqueItems : Bool
  xml : Option openapi.Xml
  extensions : Extensions

/-- Source object schema variant (src/spec/definition.rs, Object). -/
structure Object (σ : Type) where
  format : Option openapi.SchemaFormat
  title : Option String
  description : Option String
  default : Option Json
  multipleOf : Option F64
  maximum : Option F64
  exclusiveMaximum : Option F64
  minimum : Option F64
  exclusiveMinimum : Option F64
  maxLength : Option Nat
  minLength : Option Nat
  pattern : Option String
  maxProperties : Option Nat
  minProperties : Option Nat
  required : List String
  enumValues : Option (List Json)
  schemaType : openapi.SchemaType
  properties : List (String × RefOr σ)
  additionalProperties : Option (AdditionalProperties σ)
  readOnly : Option Bool
  xml : Option openapi.Xml
  exampleVal : Option Json
  extensions : Extensions

/-- Source allOf schema variant (src/spec/definition.rs, AllOf). -/
structure AllOf (σ : Type) where
  items : List (RefOr σ)
  title : Option String
  description : Option String
  default : Option Json
  exampleVal : Option Json
  discriminator : Option String
  extensions : Extensions

/-- Source Schema (src/spec/definition.rs, lines 30-37): a closed
polymorphic type with the three variants Array, Object, AllOf. -/
inductive Schema where
  | array (a : spec.Array Schema)
  | object (o : spec.Object Schema)
  | allOf (a : spec.AllOf Schema)

end spec

mutual

/-- From Schema for openapi::Schema (src/spec/definition.rs,
lines 39-117). -/
def schemaToOpenapi : spec.Schema → openapi.Schema
  | .array ⟨_st, title, items, description, exampleVal, default, maxItems,
      minItems, uniqueItems, xml, extensions⟩ =>
    .array
      { schemaType := openapi.nullableWiden extensions.nullable
          (.type .array)
        title := title
        items := refOrSchemaToOpenapi items
        description := description
        default := default
        exampleVal := exampleVal
        xml := xml
        maxItems := maxItems
        minItems := minItems
        uniqueItems := uniqueItems
        extensions := extensions.intoOpenapiExtensions }
  | .object ⟨format, title, description, default, multipleOf, maximum,
      exclusiveMaximum, minimum, exclusiveMinimum, maxLength, minLength,
      pattern, maxProperties, minProperties, required, enumValues,
      schemaType, properties, additionalProperties, readOnly, xml,
      exampleVal, extensions⟩ =>
    .object
      { schemaType := openapi.nullableWiden extensions.nullable schemaType
        title := title
        format := format
        description := description
        default := default
        enumValues := enumValues
        exampleVal := exampleVal
        readOnly := readOnly
        xml := xml
        multipleOf := multipleOf
        maximum := maximum
        minimum := minimum
        exclusiveMaximum := exclusiveMaximum
        exclusiveMinimum := exclusiveMinimum
        maxLength := maxLength
        minLength := minLength
        pattern := pattern
        maxProperties := maxProperties
        minProperties := minProperties
        required := required
        properties := schemaPropsToOpenapi properties
        additionalProperties := addPropsOptToOpenapi additionalProperties
        extensions := extensions.intoOpenapiExtensions }
  | .allOf ⟨items, title, description, default, exampleVal, discriminator,
      extensions⟩ =>
    .allOf
      { items := refOrSchemaListToOpenapi items
        title := title
        description := description
        default := default
        exampleVal := exampleVal
        discriminator := discriminator.map openapi.Discriminator.mk
        nullable := extensions.nullable
        extensions := extensions.intoOpenapiExtensions }

/-- RefOr::into_openapi_ref at T = Schema (src/spec/mod.rs,
lines 100-108): inline values convert, references get their location
rewritten by openapi_ref_location. -/
def refOrSchemaToOpenapi : spec.RefOr spec.Schema →
    openapi.RefOr openapi.Schema
  | .ref refLocation => .ref ⟨openapi_ref_location refLocation⟩
  | .t v => .t (schemaToOpenapi v)

/-- Entry-wise conversion of a properties map. -/
def schemaPropsToOpenapi :
    List (String × spec.RefOr spec.Schema) →
    List (String × openapi.RefOr openapi.Schema)
  | [] => []
  | (k, v) :: rest => (k, refOrSchemaToOpenapi v) :: schemaPropsToOpenapi rest

/-- Element-wise conversion of an allOf item list. -/
def refOrSchemaListToOpenapi :
    List (spec.RefOr spec.Schema) → List (openapi.RefOr openapi.Schema)
  | [] => []
  | r :: rest => refOrSchemaToOpenapi r :: refOrSchemaListToOpenapi rest

/-- AdditionalProperties::into_openapi_additional_properties
(src/spec/mod.rs, lines 143-155): references and inline schemas map
through, the free-form flag maps through, and any other shape is
discarded and replaced by the default placeholder schema. -/
def addPropsToOpenapi : spec.AdditionalProperties spec.Schema →
    openapi.AdditionalProperties openapi.Schema
  | .refOr r => .refOr (refOrSchemaToOpenapi r)
  | .freeForm f => .freeForm f
  | .any _ => .refOr (.t openapi.Schema.defaultSchema)

/-- Lifting of the additionalProperties conversion over its optional
presence in an object schema. -/
def addPropsOptToOpenapi :
    Option (spec.AdditionalProperties spec.Schema) →
    Option (openapi.AdditionalProperties openapi.Schema)
  | none => none
  | some p => some (addPropsToOpenapi p)

end

/-- Definitions (src/spec/definition.rs, lines 14-17). -/
structure Definitions where
  defintions : List (String × spec.RefOr spec.Schema)

/-- From Definitions for the components/schemas map
(src/spec/definition.rs, lines 19-27). -/
def definitionsToOpenapi (d : Definitions) :
    List (String × openapi.RefOr openapi.Schema) :=
  d.defintions.map fun kv => (kv.1, refOrSchemaToOpenapi kv.2)

/-- Error type of TryFrom Parameter (src/spec/path.rs, lines 9-11). -/
structure InvalidPathParameter where
deriving DecidableEq, Repr

/-- is_required (src/spec/path.rs, lines 212-218). -/
def is_required (required : Bool) : openapi.Required :=
  if required then .true else .false

/-- ParameterGeneric (src/spec/path.rs, lines 236-264): the generic
schema-like shape shared by Query/Header/Path/FormData parameters and
response headers. Recursive through the optional items field. -/
inductive ParameterGeneric where
  | mk (schemaType : openapi.Ty)
       (format : Option openapi.SchemaFormat)
       (items : Option ParameterGeneric)
       (allowEmptyValue : Option Bool)
       (collectionFormat : Option String)
       (default : Option Json)
       (maximum : Option F64)
       (exclusiveMaximum : Option Bool)
       (minimum : Option F64)
       (exclusiveMinimum : Option Bool)
       (maxLength : Option Nat)
       (minLength : Option Nat)
       (pattern : Option String)
       (maxItems : Option Nat)
       (minItems : Option Nat)
       (uniqueItems : Option Bool)
       (enumValues : Option (List Json))
       (multipleOf : Option F64)
       (extensions : Extensions)

/-- The type field of a generic parameter shape. -/
def ParameterGeneric.schemaType : ParameterGeneric → openapi.Ty
  | .mk st .. => st

/-- The items field of a generic parameter shape. -/
def ParameterGeneric.items : ParameterGeneric → Option ParameterGeneric
  | .mk _ _ items .. => items

/-- The extensions of a generic parameter shape. -/
def ParameterGeneric.extensions : ParameterGeneric → Extensions
  | .mk _ _ _ _ _ _ _ _ _ _ _ _ _ _ _ _ _ _ e => e

/-- From ParameterGeneric for openapi::Schema (src/spec/path.rs,
lines 266-322). An array-typed shape converts its items recursively —
value.items.unwrap() panics (modelled as none) when items is absent; any
other type converts to an object schema. Fields commented out in the
source are left at their builder defaults. -/
def ParameterGeneric.toSchema : ParameterGeneric → Option openapi.Schema
  | .mk schemaType format items _allowEmptyValue _collectionFormat default
       maximum _exclusiveMaximum minimum _exclusiveMinimum maxLength
       minLength pattern maxItems minItems _uniqueItems enumValues
       multipleOf extensions =>
    match schemaType with
    | .array =>
      match items with
      | none => none
      | some inner => do
        let innerSchema ← inner.toSchema
        return .array
          { schemaType := nullable_or_type extensions.nullable .array
            title := none
            items := .t innerSchema
            description := none
            default := default
            exampleVal := none
            xml := none
            maxItems := maxItems
            minItems := minItems
            uniqueItems := false
            extensions := none }
    | _ =>
      some (.object
        { schemaType := nullable_or_type extensions.nullable schemaType
          title := none
          format := format
          description := none
          default := default
          enumValues := enumValues
          exampleVal := none
          readOnly := none
          xml := none
          multipleOf := multipleOf
          maximum := maximum
          minimum := minimum
          exclusiveMaximum := none
          exclusiveMinimum := none
          maxLength := maxLength
          minLength := minLength
          pattern := pattern
          maxProperties := none
          minProperties := none
          required := []
          properties := []
          additionalProperties := none
          extensions := none })

namespace openapi

/-- utoipa path::ParameterIn restricted to the variants the converter
produces. -/
inductive ParameterIn where
  | query
  | header
  | path
deriving DecidableEq, Repr

/-- Fields of a target parameter that the converter sets
(utoipa path::Parameter). -/
structure Parameter where
  name : String
  description : Option String
  schema : Option (RefOr Schema)
  parameterIn : ParameterIn
  required : Required
  extensions : Option Extensions

/-- utoipa example::Example (only the value field is set). -/
structure Example where
  value : Option Json

/-- Fields of a target content entry that the converter sets
(utoipa content::Content). -/
structure Content where
  schema : Option (RefOr Schema)
  examples : List (String × RefOr Example)

/-- Fields of a target request body that the converter sets
(utoipa request_body::RequestBody). -/
structure RequestBody where
  description : Option String
  required : Option Required
  content : List (String × Content)

/-- utoipa header::Header (schema and description are set). -/
structure Header where
  schema : RefOr Schema
  description : Option String

/-- Fields of a target response that the converter sets
(utoipa openapi::Response). -/
structure Response where
  description : String
  headers : List (String × Header)
  content : List (String × Content)
  extensions : Option Extensions

/-- utoipa openapi::Responses. -/
structure Responses where
  responses : List (String × RefOr Response)

/-- Fields of a target operation that the converter sets
(utoipa path::Operation). -/
structure Operation where
  tags : Option (List String)
  summary : Option String
  description : Option String
  operationId : Option String
  parameters : Option (List Parameter)
  requestBody : Option RequestBody
  responses : Responses
  deprecated : Option Deprecated
  security : Option (List SecurityRequirement)
  extensions : Option Extensions

/-- utoipa path::PathItem (the eight verb slots plus shared
parameters). -/
structure PathItem where
  get : Option Operation
  put : Option Operation
  post : Option Operation
  delete : Option Operation
  options : Option Operation
  head : Option Operation
  patch : Option Operation
  trace : Option Operation
  parameters : Option (List Parameter)

/-- utoipa openapi::Paths. -/
structure Paths where
  paths : List (String × PathItem)
  extensions : Option Extensions

/-- One target OAuth2 flow (utoipa security::Flow). -/
inductive Flow where
  | implicit (authorizationUrl : String) (scopes : List (String × String))
  | password (tokenUrl : String) (scopes : List (String × String))
  | clientCredentials (tokenUrl : String) (scopes : List (String × String))
  | authorizationCode (authorizationUrl : String) (tokenUrl : String)
      (scopes : List (String × String))
deriving DecidableEq, Repr

/-- utoipa security::OAuth2 (flows and description are set). -/
structure OAuth2 where
  flows : List Flow
  description : Option String
deriving DecidableEq, Repr

/-- utoipa security::SecurityScheme restricted to the variant the
converter produces. -/
inductive SecurityScheme where
  | oauth2 (o : OAuth2)
deriving DecidableEq, Repr

/-- utoipa openapi::Components (the three maps the converter fills). -/
structure Components where
  schemas : List (String × RefOr Schema)
  responses : List (String × RefOr Response)
  securitySchemes : List (String × SecurityScheme)

/-- Fields of the target root document that the converter sets
(utoipa openapi::OpenApi). -/
structure OpenApi where
  info : Info
  paths : Paths
  servers : Option (List Server)
  components : Option Components
  security : Option (List SecurityRequirement)
  tags : Option (List Tag)
  externalDocs : Option ExternalDocs

end openapi

/-- ParameterHeader (src/spec/response.rs, lines 88-92). -/
structure ParameterHeader where
  description : String
  parameter : ParameterGeneric

/-- From ParameterHeader for openapi Header (src/spec/response.rs,
lines 94-101). -/
def ParameterHeader.toOpenapi (value : ParameterHeader) :
    Option openapi.Header := do
  let s ← value.parameter.toSchema
  return { description := some value.description, schema := .t s }

/-- Response (src/spec/response.rs, lines 39-46). -/
structure Response where
  description : String
  schema : Option (spec.RefOr spec.Schema)
  headers : Option (List (String × ParameterHeader))
  examples : Option (List (String × Json))
  extensions : Option Extensions

/-- Entry-wise conversion of a response header map. -/
def headersToOpenapi : List (String × ParameterHeader) →
    Option (List (String × openapi.Header))
  | [] => some []
  | (k, v) :: rest => do
    let h ← v.toOpenapi
    let others ← headersToOpenapi rest
    return (k, h) :: others

/-- From Response for openapi::Response (src/spec/response.rs,
lines 48-81): the schema (if present) and the named examples (if
present) populate a single application/json content entry; headers
convert entry-wise; extensions pass through whole. -/
def Response.toOpenapi (value : Response) : Option openapi.Response := do
  let contentSchema := value.schema.map refOrSchemaToOpenapi
  let contentExamples :=
    match value.examples with
    | none => []
    | some exs => exs.map fun kv =>
        (kv.1, openapi.RefOr.t (openapi.Example.mk (some kv.2)))
  let content : openapi.Content :=
    { schema := contentSchema, examples := contentExamples }
  let headers ← headersToOpenapi (value.headers.getD [])
  return { description := value.description
           content := [("application/json", content)]
           extensions := value.extensions.map fun e => e.entries
           headers := headers }

/-- Responses (src/spec/response.rs, lines 14-20): a status-code-keyed
mapping plus an optional default entry. -/
structure Responses where
  responses : List (String × spec.RefOr Response)
  default : Option (spec.RefOr Response)
  extensions : Option Extensions

/-- RefOr::into_openapi_ref at T = Response. -/
def refOrResponseToOpenapi : spec.RefOr Response →
    Option (openapi.RefOr openapi.Response)
  | .ref refLocation => some (.ref ⟨openapi_ref_location refLocation⟩)
  | .t v => (v.toOpenapi).map .t

/-- Entry-wise conversion of the status-code-keyed response map. -/
def responsesEntriesToOpenapi : List (String × spec.RefOr Response) →
    Option (List (String × openapi.RefOr openapi.Response))
  | [] => some []
  | (k, v) :: rest => do
    let cv ← refOrResponseToOpenapi v
    let others ← responsesEntriesToOpenapi rest
    return (k, cv) :: others

/-- From Responses for openapi::Responses (src/spec/response.rs,
lines 22-32): only the status-code-keyed mapping is converted; the
default field is not read. -/
def Responses.toOpenapi (value : Responses) : Option openapi.Responses := do
  let entries ← responsesEntriesToOpenapi value.responses
  return { responses := entries }

/-- ParameterBody (src/spec/path.rs, lines 328-330). -/
structure ParameterBody where
  schema : spec.RefOr spec.Schema

/-- ParameterIn (src/spec/path.rs, lines 220-229): the location tag of
a parameter, with the location-specific payload. -/
inductive ParameterIn where
  | query (g : ParameterGeneric)
  | header (g : ParameterGeneric)
  | path (g : ParameterGeneric)
  | formData (g : ParameterGeneric)
  | body (b : ParameterBody)

/-- Parameter (src/spec/path.rs, lines 166-179). -/
structure Parameter where
  name : String
  description : Option String
  required : Bool
  parameterIn : ParameterIn
  extensions : Extensions

/-- TryFrom Parameter for openapi path::Parameter (src/spec/path.rs,
lines 181-210): Query/Header/Path convert their generic shape (whose
array-without-items case panics, modelled by the outer none);
FormData and Body return the InvalidPathParameter error. -/
def Parameter.tryIntoOpenapi (value : Parameter) :
    Option (Except InvalidPathParameter openapi.Parameter) :=
  let build : openapi.ParameterIn → openapi.Schema → openapi.Parameter :=
    fun pin s =>
      { name := value.name
        description := value.description
        schema := some (.t s)
        parameterIn := pin
        required := is_required value.required
        extensions := value.extensions.intoOpenapiExtensions }
  match value.parameterIn with
  | .query g => (g.toSchema).map fun s => .ok (build .query s)
  | .header g => (g.toSchema).map fun s => .ok (build .header s)
  | .path g => (g.toSchema).map fun s => .ok (build .path s)
  | .formData _ => some (.error ⟨⟩)
  | .body _ => some (.error ⟨⟩)

/-- Operation (src/spec/path.rs, lines 85-104). -/
structure Operation where
  tags : Option (List String)
  summary : Option String
  description : Option String
  externalDocs : Option openapi.ExternalDocs
  operationId : Option String
  consumes : Option (List String)
  produces : Option (List String)
  parameters : Option (List Parameter)
  responses : Responses
  schemes : Option (List String)
  deprecated : Option openapi.Deprecated
  security : Option (List openapi.SecurityRequirement)
  extensions : Extensions

/-- The parameter loop of From Operation (src/spec/path.rs,
lines 120-153), as a fold over the parameter list carrying the
request-body slot and the accumulated target parameters: FormData
converts its generic shape into a form-urlencoded request body, Body
wraps its schema into a json request body (each overwriting the slot),
and every other location is pushed when its try-conversion succeeds
and skipped when it errors. -/
def operationParamsFold :
    List Parameter → Option openapi.RequestBody → List openapi.Parameter →
    Option (Option openapi.RequestBody × List openapi.Parameter)
  | [], requestBody, acc => some (requestBody, acc)
  | param :: rest, requestBody, acc =>
    match param.parameterIn with
    | .formData formBody =>
      match formBody.toSchema with
      | none => none
      | some s =>
        let content : openapi.Content := { schema := some (.t s), examples := [] }
        let reqBody : openapi.RequestBody :=
          { description := param.description
            required := some (is_required param.required)
            content := [("application/x-www-form-urlencoded", content)] }
        operationParamsFold rest (some reqBody) acc
    | .body b =>
      let content : openapi.Content :=
        { schema := some (refOrSchemaToOpenapi b.schema), examples := [] }
      let reqBody : openapi.RequestBody :=
        { description := param.description
          required := some (is_required param.required)
          content := [("application/json", content)] }
      operationParamsFold rest (some reqBody) acc
    | _ =>
      match param.tryIntoOpenapi with
      | none => none
      | some (.ok q) => operationParamsFold rest requestBody (acc ++ [q])
      | some (.error _) => operationParamsFold rest requestBody acc

/-- From Operation for openapi path::Operation (src/spec/path.rs,
lines 106-160). -/
def Operation.toOpenapi (op : Operation) : Option openapi.Operation := do
  let responses ← op.responses.toOpenapi
  let base : openapi.Operation :=
    { tags := op.tags
      summary := op.summary
      description := op.description
      operationId := op.operationId
      deprecated := op.deprecated
      responses := responses
      security := op.security
      extensions := op.extensions.intoOpenapiExtensions
      requestBody := none
      parameters := none }
  match op.parameters with
  | none => return base
  | some params => do
    let folded ← operationParamsFold params none []
    return { base with requestBody := folded.1, parameters := some folded.2 }

/-- PathItem (src/spec/path.rs, lines 46-56). -/
structure PathItem where
  get : Option Operation
  put : Option Operation
  post : Option Operation
  delete : Option Operation
  options : Option Operation
  head : Option Operation
  patch : Option Operation
  trace : Option Operation
  parameters : Option (List Parameter)

/-- The shared-parameter conversion of From PathItem (src/spec/path.rs,
lines 60-62): filter_map over try_into().ok() — parameters whose
try-conversion errors are dropped, while a panic propagates. -/
def pathItemParamsFilter : List Parameter → Option (List openapi.Parameter)
  | [] => some []
  | p :: rest =>
    match p.tryIntoOpenapi with
    | none => none
    | some r => do
      let others ← pathItemParamsFilter rest
      match r with
      | .ok q => return q :: others
      | .error _ => return others

/-- Conversion of one optional verb slot (value.get.map(Into::into)). -/
def verbSlotToOpenapi : Option Operation → Option (Option openapi.Operation)
  | none => some none
  | some op => (op.toOpenapi).map some

/-- From PathItem for openapi::PathItem (src/spec/path.rs,
lines 58-78). -/
def PathItem.toOpenapi (value : PathItem) : Option openapi.PathItem := do
  let params ← match value.parameters with
    | none => pure (none : Option (List openapi.Parameter))
    | some ps => (pathItemParamsFilter ps).map some
  let get ← verbSlotToOpenapi value.get
  let put ← verbSlotToOpenapi value.put
  let post ← verbSlotToOpenapi value.post
  let delete ← verbSlotToOpenapi value.delete
  let options ← verbSlotToOpenapi value.options
  let head ← verbSlotToOpenapi value.head
  let patch ← verbSlotToOpenapi value.patch
  let trace ← verbSlotToOpenapi value.trace
  return { get := get, put := put, post := post, delete := delete
           options := options, head := head, patch := patch, trace := trace
           parameters := params }

/-- Paths (src/spec/path.rs, lines 17-26). -/
structure Paths where
  paths : List (String × PathItem)
  extensions : Extensions

/-- Entry-wise conversion of the path map. -/
def pathsEntriesToOpenapi : List (String × PathItem) →
    Option (List (String × openapi.PathItem))
  | [] => some []
  | (k, v) :: rest => do
    let cv ← v.toOpenapi
    let others ← pathsEntriesToOpenapi rest
    return (k, cv) :: others

/-- From Paths for openapi::Paths (src/spec/path.rs, lines 28-40). -/
def Paths.toOpenapi (value : Paths) : Option openapi.Paths := do
  let entries ← pathsEntriesToOpenapi value.paths
  return { paths := entries
           extensions := value.extensions.intoOpenapiExtensions }

namespace spec

/-- Flow (src/spec/security.rs, lines 42-57): the four OAuth2 flow
kinds of the source document. -/
inductive Flow where
  | implicit (authorizationUrl : String)
  | password (tokenUrl : String)
  | application (tokenUrl : String)
  | accessCode (authorizationUrl : String) (tokenUrl : String)
deriving DecidableEq, Repr

/-- Flow::into_openapi_flow (src/spec/security.rs, lines 59-87):
absent scopes default to the empty scope set; the four source flow
kinds map one-to-one onto the four target flow kinds. -/
def Flow.intoOpenapiFlow (self : Flow)
    (scopes : Option (List (String × String))) : openapi.Flow :=
  let scopes := scopes.getD []
  match self with
  | .implicit authorizationUrl => .implicit authorizationUrl scopes
  | .password tokenUrl => .password tokenUrl scopes
  | .application tokenUrl => .clientCredentials tokenUrl scopes
  | .accessCode authorizationUrl tokenUrl =>
    .authorizationCode authorizationUrl tokenUrl scopes

/-- Oauth2 (src/spec/security.rs, lines 27-32). -/
structure Oauth2 where
  description : Option String
  flow : Flow
  scopes : Option (List (String × String))
deriving DecidableEq, Repr

/-- From Oauth2 for openapi security::OAuth2 (src/spec/security.rs,
lines 34-40). -/
def Oauth2.toOpenapi (value : Oauth2) : openapi.OAuth2 :=
  { flows := [value.flow.intoOpenapiFlow value.scopes]
    description := value.description }

/-- SecurityScheme (src/spec/security.rs, lines 10-12): a single
closed variant. -/
inductive SecurityScheme where
  | oauth2 (o : Oauth2)
deriving DecidableEq, Repr

/-- From SecurityScheme for openapi security::SecurityScheme
(src/spec/security.rs, lines 14-21). -/
def SecurityScheme.toOpenapi : SecurityScheme → openapi.SecurityScheme
  | .oauth2 o => .oauth2 o.toOpenapi

end spec

/-- SwaggerVersion (src/spec/mod.rs, lines 159-162): the only accepted
version tag. -/
inductive SwaggerVersion where
  | version2
deriving DecidableEq, Repr

/-- Swagger (src/spec/mod.rs, lines 168-184): the parsed source root
document. -/
structure Swagger where
  swagger : SwaggerVersion
  info : openapi.Info
  host : Option String
  basePath : Option String
  schemes : Option (List ProtocolSchemes)
  consumes : Option (List String)
  produces : Option (List String)
  paths : Paths
  definitions : Option Definitions
  responses : Option Responses
  securityDefinitions : List (String × spec.SecurityScheme)
  security : Option (List openapi.SecurityRequirement)
  tags : Option (List openapi.Tag)
  externalDocs : Option openapi.ExternalDocs

/-- From Swagger for openapi::OpenApi (src/spec/mod.rs, lines 186-218):
the document assembler. Shared responses and definitions fill the
components maps, security definitions convert entry-wise, servers come
from openapi_servers_from_host, and info, security and external docs
pass through the builder unchanged. The builder is never given the
source tags, so the target tags field keeps the builder default None. -/
def Swagger.toOpenApi (swagger : Swagger) : Option openapi.OpenApi := do
  let responses ← match swagger.responses with
    | some r => r.toOpenapi
    | none => pure { responses := [] }
  let schemas := match swagger.definitions with
    | some d => definitionsToOpenapi d
    | none => []
  let securitySchemes :=
    swagger.securityDefinitions.map fun kv => (kv.1, kv.2.toOpenapi)
  let components : openapi.Components :=
    { schemas := schemas
      responses := responses.responses
      securitySchemes := securitySchemes }
  let servers :=
    openapi_servers_from_host swagger.schemes swagger.host swagger.basePath
  let paths ← swagger.paths.toOpenapi
  return { info := swagger.info
           paths := paths
           servers := servers
           components := some components
           security := swagger.security
           tags := none
           externalDocs := swagger.externalDocs }

/-- The type tag of a converted target schema (the array and object
shapes carry one; the allOf shape does not). -/
def openapi.Schema.typeTag : openapi.Schema → Option openapi.SchemaType
  | .array a => some a.schemaType
  | .object o => some o.schemaType
  | .allOf _ => none

/-- A parameter whose location tag is FormData or Body (the two
locations that the spec says cannot be represented as target
parameters). -/
def isBodyLike (p : Parameter) : Bool :=
  match p.parameterIn with
  | .formData _ => true
  | .body _ => true
  | _ => false

/-- The last FormData/Body parameter of a list, in list order
(characterization following the claim wording "the last one in list
order"). -/
def lastBodyLike : List Parameter → Option Parameter
  | [] => none
  | p :: rest =>
    match lastBodyLike rest with
    | some q => some q
    | none => if isBodyLike p then some p else none

/-- The request body obtained from one FormData/Body parameter
(characterization following the claim wording: FormData wrapped as a
form-urlencoded content entry, Body as a json content entry, required
flag copied). -/
def bodyLikeRequestBody (p : Parameter) : Option openapi.RequestBody :=
  match p.parameterIn with
  | .formData g =>
    (g.toSchema).map fun s =>
      { description := p.description
        required := some (is_required p.required)
        content := [("application/x-www-form-urlencoded",
          { schema := some (.t s), examples := [] })] }
  | .body b =>
    some
      { description := p.description
        required := some (is_required p.required)
        content := [("application/json",
          { schema := some (refOrSchemaToOpenapi b.schema), examples := [] })] }
  | _ => none

/-- The target parameters collected from a list: the successful
try-conversions, in order (characterization of the loop's parameter
output). -/
def okParamConversions : List Parameter → List openapi.Parameter
  | [] => []
  | p :: rest =>
    match p.tryIntoOpenapi with
    | some (.ok q) => q :: okParamConversions rest
    | _ => okParamConversions rest

/-- Char-list level join with a separator character. -/
def joinChar (c : Char) : List (List Char) → List Char
  | [] => []
  | [p] => p
  | p :: rest => p ++ c :: joinChar c rest

/-- Empty extension bag. -/
def emptyExts : Extensions := ⟨[]⟩

/-- Extension bag carrying a true x-nullable flag. -/
def nullableExts : Extensions := ⟨[("x-nullable", .bool true)]⟩

/-- A generic parameter shape of array type whose items field is
absent: parseable, but its conversion hits value.items.unwrap(). -/
def badArrayParamGeneric : ParameterGeneric :=
  .mk .array none none none none none none none none none none none none
    none none none none none emptyExts

/-- A plain string-typed generic parameter shape. -/
def strParamGeneric : ParameterGeneric :=
  .mk .string none none none none none none none none none none none none
    none none none none none emptyExts

/-- An operation with no content. -/
def baseOperation : Operation :=
  { tags := none, summary := none, description := none, externalDocs := none
    operationId := none, consumes := none, produces := none, parameters := none
    responses := ⟨[], none, none⟩, schemes := none, deprecated := none
    security := none, extensions := emptyExts }

/-- A path item with no content. -/
def basePathItem : PathItem :=
  { get := none, put := none, post := none, delete := none, options := none
    head := none, patch := none, trace := none, parameters := none }

/-- A minimal parsed source document. -/
def baseSwagger : Swagger :=
  { swagger := .version2, info := ⟨.null⟩, host := none, basePath := none
    schemes := none, consumes := none, produces := none
    paths := ⟨[], emptyExts⟩, definitions := none, responses := none
    securityDefinitions := [], security := none, tags := none
    externalDocs := none }

/-- A query parameter carrying the items-less array shape. -/
def badQueryParam : Parameter :=
  ⟨"limit", none, false, .query badArrayParamGeneric, emptyExts⟩

/-- A well-formed query parameter. -/
def goodQueryParam : Parameter :=
  ⟨"q", none, false, .query strParamGeneric, emptyExts⟩

/-- A FormData parameter with a well-formed generic shape. -/
def formDataParam : Parameter :=
  ⟨"f", none, true, .formData strParamGeneric, emptyExts⟩

/-- A Body parameter referencing a shared definition. -/
def bodyParam : Parameter :=
  ⟨"b", some "payload", true, .body ⟨.ref "#/definitions/Pet"⟩, emptyExts⟩

/-- A parsed document whose only operation carries the items-less
array parameter. -/
def c1Doc : Swagger :=
  { baseSwagger with
    paths := ⟨[("/pets",
      { basePathItem with
        get := some { baseOperation with parameters := some [badQueryParam] } })],
      emptyExts⟩ }

/-- A parsed document carrying a top-level tags list. -/
def c2Doc : Swagger :=
  { baseSwagger with tags := some [⟨.str "pets"⟩] }

/-- A response with no schema, headers or examples. -/
def c5DefaultOnlyResponse : Response :=
  ⟨"the default response", none, none, none, none⟩

/-- A responses collection whose only entry is the default entry. -/
def c5DefaultOnlyResponses : Responses :=
  ⟨[], some (.t c5DefaultOnlyResponse), none⟩

/-- A response with a referenced schema and one named example. -/
def c5StatusResponse : Response :=
  ⟨"ok", some (.ref "#/definitions/Pet"), none, some [("ex1", .str "v")], none⟩

/-- A responses collection with one status-code entry. -/
def c5StatusResponses : Responses :=
  ⟨[("200", .t c5StatusResponse)], none, none⟩

/-- A nullable string-typed generic parameter shape. -/
def c6ParamGeneric : ParameterGeneric :=
  .mk .string none none none none none none none none none none none none
    none none none none none nullableExts

/-- A nullable source object schema with a single declared type. -/
def c6Object : spec.Object spec.Schema :=
  { format := none, title := none, description := none, default := none
    multipleOf := none, maximum := none, exclusiveMaximum := none
    minimum := none, exclusiveMinimum := none, maxLength := none
    minLength := none, pattern := none, maxProperties := none
    minProperties := none, required := [], enumValues := none
    schemaType := .type .string, properties := []
    additionalProperties := none, readOnly := none, xml := none
    exampleVal := none, extensions := nullableExts }

/-- A nullable source array schema. -/
def c6Array : spec.Array spec.Schema :=
  { schemaType := .type .array, title := none
    items := .ref "#/definitions/Pet", description := none
    exampleVal := none, default := none, maxItems := none, minItems := none
    uniqueItems := false, xml := none, extensions := nullableExts }

/-- An operation carrying a FormData, a Query and a Body parameter. -/
def c7Op : Operation :=
  { baseOperation with parameters := some [formDataParam, goodQueryParam, bodyParam] }

/-- An operation carrying the malformed parameter followed by a
well-formed one. -/
def c9Op : Operation :=
  { baseOperation with parameters := some [badQueryParam, goodQueryParam] }

/-- The same operation with the malformed parameter removed. -/
def c9OpWithoutBad : Operation :=
  { baseOperation with parameters := some [goodQueryParam] }

/-- A path item with shared FormData and Query parameters. -/
def c10Item : PathItem :=
  { basePathItem with parameters := some [formDataParam, goodQueryParam] }

/-- The expected conversion of the minimal document. -/
def baseSwaggerOut : openapi.OpenApi :=
  { info := ⟨.null⟩, paths := ⟨[], none⟩, servers := none
    components := some ⟨[], [], []⟩, security := none, tags := none
    externalDocs := none }

/-- The expected conversion of the plain string-typed shape. -/
def strSchemaOut : openapi.Schema :=
  .object
    { schemaType := .type .string
      title := none, format := none, description := none, default := none
      enumValues := none, exampleVal := none, readOnly := none, xml := none
      multipleOf := none, maximum := none, minimum := none
      exclusiveMaximum := none, exclusiveMinimum := none
      maxLength := none, minLength := none, pattern := none
      maxProperties := none, minProperties := none
      required := [], properties := [], additionalProperties := none
      extensions := none }

/-- The expected conversion of the well-formed query parameter. -/
def goodQueryParamOut : openapi.Parameter :=
  { name := "q", description := none, schema := some (.t strSchemaOut)
    parameterIn := .query, required := .false, extensions := none }

/-- The expected request body obtained from the Body parameter. -/
def bodyReqBodyOut : openapi.RequestBody :=
  { description := some "payload", required := some .true
    content := [("application/json",
      { schema := some (.ref ⟨"#/components/schemas/Pet"⟩)
        examples := [] })] }

/-- The expected conversion of the three-parameter operation. -/
def c7OpOut : openapi.Operation :=
  { tags := none, summary := none, description := none, operationId := none
    parameters := some [goodQueryParamOut], requestBody := some bodyReqBodyOut
    responses := ⟨[]⟩, deprecated := none, security := none
    extensions := none }

/-- The expected conversion of the one-entry responses collection. -/
def c5StatusResponseOut : openapi.Response :=
  { description := "ok", headers := []
    content := [("application/json",
      { schema := some (.ref ⟨"#/components/schemas/Pet"⟩)
        examples := [("ex1", .t ⟨some (.str "v")⟩)] })]
    extensions := none }

/-- The expected target responses for the one-entry collection. -/
def c5StatusResponsesOut : openapi.Responses :=
  ⟨[("200", .t c5StatusResponseOut)]⟩

/-- The expected conversion of the nullable string-typed shape. -/
def c6ParamGenericOut : openapi.Schema :=
  .object
    { schemaType := .array [.string, .null]
      title := none, format := none, description := none, default := none
      enumValues := none, exampleVal := none, readOnly := none, xml := none
      multipleOf := none, maximum := none, minimum := none
      exclusiveMaximum := none, exclusiveMinimum := none
      maxLength := none, minLength := none, pattern := none
      maxProperties := none, minProperties := none
      required := [], properties := [], additionalProperties := none
      extensions := none }

/-- Claim C1: the spec states that, for every successfully parsed
source document, conversion to the target document is total and never
fails, in particular when an operation parameter of array type omits
its items field. The code contradicts this: the From implementation
for ParameterGeneric unwraps the optional items field, so that exact
input panics (modelled as none), and the panic aborts the whole
document conversion. -/
theorem c1_conversion_panics_on_itemless_array_parameter :
    ParameterGeneric.toSchema badArrayParamGeneric = none ∧
    Swagger.toOpenApi c1Doc = none :=
  ⟨rfl, rfl⟩

/-- Claim C9: the spec states that a parameter whose conversion fails
is dropped from the output list without aborting the rest of the
operation. The code contradicts this: the only failing conversion of a
location-specific schema is the items-less array shape, which panics
instead of returning the error that the drop branch catches, so the
whole operation conversion aborts (none) rather than equalling the
conversion of the list with the failing parameter removed (which
succeeds). -/
theorem c9_malformed_parameter_aborts_operation :
    Operation.toOpenapi c9Op = none ∧
    (Operation.toOpenapi c9OpWithoutBad).isSome = true :=
  ⟨rfl, rfl⟩

/-- Claim C4: server synthesis produces no servers when either the
schemes list or the host is absent, and with a host and K declared
schemes produces exactly K servers in declared order, each with url
scheme://host followed by the base path (defaulting to "/"), with no
deduplication. -/
theorem c4_server_synthesis :
    (∀ host bp, openapi_servers_from_host none host bp = none) ∧
    (∀ schemes bp, openapi_servers_from_host schemes none bp = none) ∧
    (∀ ss host bp,
      openapi_servers_from_host (some ss) (some host) bp =
        some (ss.map fun s =>
          openapi.Server.mk (s.schemeStr ++ "://" ++ host ++ bp.getD "/")) ∧
      ((openapi_servers_from_host (some ss) (some host) bp).getD []).length
        = ss.length) := by
  refine ⟨?_, ?_, ?_⟩
  · intro host bp
    cases host <;> rfl
  · intro schemes bp
    rfl
  · intro ss host bp
    refine ⟨rfl, ?_⟩
    simp [openapi_servers_from_host]

/-- Claim C8: the additionalProperties conversion is total and
case-exact: a reference maps to the rewritten reference, an inline
schema maps to its conversion, the boolean free-form flag maps to the
same flag, and any other shape maps to the placeholder default empty
schema. -/
theorem c8_additional_properties_total_and_case_exact :
    (∀ loc, addPropsToOpenapi (.refOr (.ref loc)) =
      .refOr (.ref ⟨openapi_ref_location loc⟩)) ∧
    (∀ s, addPropsToOpenapi (.refOr (.t s)) =
      .refOr (.t (schemaToOpenapi s))) ∧
    (∀ b, addPropsToOpenapi (.freeForm b) = .freeForm b) ∧
    (∀ m, addPropsToOpenapi (.any m) =
      .refOr (.t openapi.Schema.defaultSchema)) :=
  ⟨fun _ => rfl, fun _ => rfl, fun _ => rfl, fun _ => rfl⟩

/-- Claim C2, counterexample: the assembler does not copy the tags
list: a document with a nonempty tags list converts to a document
whose tags field is None. -/
theorem c2_counterexample_tags_not_copied :
    (Swagger.toOpenApi c2Doc).map openapi.OpenApi.tags = some none ∧
    c2Doc.tags ≠ none :=
  ⟨rfl, by simp [c2Doc]⟩

/-- Claim C2, amended: the assembler copies the info block, the
top-level security requirements and the external-docs field unchanged,
but drops the tags list: the output tags field is always None. -/
theorem c2_assembler_copies_info_security_extdocs
    (s : Swagger) (out : openapi.OpenApi)
    (h : Swagger.toOpenApi s = some out) :
    out.info = s.info ∧ out.security = s.security ∧
    out.externalDocs = s.externalDocs ∧ out.tags = none := by
  unfold Swagger.toOpenApi at h
  split at h <;> split at h <;>
    simp only [Option.bind_eq_bind, Option.some_bind, Option.bind_eq_some,
      Option.pure_def, Option.some.injEq] at h <;>
    first
    | (obtain ⟨resp, hresp, paths, hpaths, hout⟩ := h
       subst hout
       exact ⟨rfl, rfl, rfl, rfl⟩)
    | (obtain ⟨paths, hpaths, hout⟩ := h
       subst hout
       exact ⟨rfl, rfl, rfl, rfl⟩)

/-- Witness for the amended claim C2 at the minimal document. -/
theorem c2_witness :
    baseSwaggerOut.info = baseSwagger.info ∧
    baseSwaggerOut.security = baseSwagger.security ∧
    baseSwaggerOut.externalDocs = baseSwagger.externalDocs ∧
    baseSwaggerOut.tags = none :=
  c2_assembler_copies_info_security_extdocs baseSwagger baseSwaggerOut rfl

theorem splitOnChar_ne_nil (c : Char) (l : List Char) :
    splitOnChar c l ≠ [] := by
  induction l with
  | nil => simp [splitOnChar]
  | cons x xs ih =>
    simp only [splitOnChar]
    by_cases hx : x = c
    · simp [hx]
    · rw [if_neg hx]
      cases hrest : splitOnChar c xs with
      | nil => simp
      | cons r rs => simp

theorem splitOnChar_no_sep (c : Char) :
    ∀ l p, p ∈ splitOnChar c l → c ∉ p := by
  intro l
  induction l with
  | nil =>
    intro p hp
    simp [splitOnChar] at hp
    subst hp
    simp
  | cons x xs ih =>
    intro p hp
    simp only [splitOnChar] at hp
    by_cases hx : x = c
    · rw [if_pos hx] at hp
      rcases List.mem_cons.mp hp with h | h
      · subst h; simp
      · exact ih p h
    · rw [if_neg hx] at hp
      cases hrest : splitOnChar c xs with
      | nil => exact absurd hrest (splitOnChar_ne_nil c xs)
      | cons r rs =>
        rw [hrest] at hp
        rcases List.mem_cons.mp hp with h | h
        · subst h
          intro hmem
          rcases List.mem_cons.mp hmem with h2 | h2
          · exact hx h2.symm
          · exact ih r (by rw [hrest]; exact List.mem_cons_self r rs) h2
        · exact ih p (by rw [hrest]; exact List.mem_cons_of_mem r h)

theorem splitOnChar_of_no_sep (c : Char) :
    ∀ p, c ∉ p → splitOnChar c p = [p] := by
  intro p
  induction p with
  | nil => intro; rfl
  | cons x xs ih =>
    intro h
    have hx : x ≠ c := fun he => h (he ▸ List.mem_cons_self x xs)
    have hxs : c ∉ xs := fun hm => h (List.mem_cons_of_mem x hm)
    simp only [splitOnChar, if_neg hx, ih hxs]

theorem splitOnChar_append (c : Char) :
    ∀ p l, c ∉ p → splitOnChar c (p ++ c :: l) = p :: splitOnChar c l := by
  intro p
  induction p with
  | nil =>
    intro l _
    simp [splitOnChar]
  | cons x xs ih =>
    intro l h
    have hx : x ≠ c := fun he => h (he ▸ List.mem_cons_self x xs)
    have hxs : c ∉ xs := fun hm => h (List.mem_cons_of_mem x hm)
    simp only [List.cons_append, splitOnChar, if_neg hx, List.append_eq]
    rw [ih l hxs]

theorem splitOnChar_joinChar (c : Char) :
    ∀ pieces, pieces ≠ [] → (∀ p ∈ pieces, c ∉ p) →
      splitOnChar c (joinChar c pieces) = pieces := by
  intro pieces
  induction pieces with
  | nil => intro h _; exact absurd rfl h
  | cons p rest ih =>
    intro _ hmem
    cases rest with
    | nil =>
      exact splitOnChar_of_no_sep c p (hmem p (List.mem_cons_self p []))
    | cons q qs =>
      have hjoin : joinChar c (p :: q :: qs) = p ++ c :: joinChar c (q :: qs) :=
        rfl
      rw [hjoin, splitOnChar_append c p _ (hmem p (List.mem_cons_self p _)),
        ih (by simp) (fun r hr => hmem r (List.mem_cons_of_mem p hr))]

theorem strJoin_toList :
    ∀ ss, (strJoin "/" ss).toList = joinChar '/' (ss.map String.toList) := by
  intro ss
  induction ss with
  | nil => rfl
  | cons s rest ih =>
    cases rest with
    | nil => rfl
    | cons t ts =>
      show (s ++ "/" ++ strJoin "/" (t :: ts)).toList = _
      have happ : ∀ a b : String, (a ++ b).toList = a.toList ++ b.toList :=
        fun a b => String.data_append a b
      rw [happ, happ, ih]
      show s.toList ++ "/".toList ++ _ = joinChar '/'
        (s.toList :: String.toList t :: List.map String.toList ts)
      rw [show "/".toList = ['/'] from rfl]
      show _ = s.toList ++ '/' :: joinChar '/'
        (String.toList t :: List.map String.toList ts)
      rw [List.append_assoc]
      rfl

theorem strSplit_strJoin (ss : List String) (h1 : ss ≠ [])
    (h2 : ∀ s ∈ ss, '/' ∉ s.toList) :
    strSplit '/' (strJoin "/" ss) = ss := by
  unfold strSplit
  rw [strJoin_toList, splitOnChar_joinChar '/' _ (by simpa using h1)
    (by intro p hp
        obtain ⟨s, hs, rfl⟩ := List.mem_map.mp hp
        exact h2 s hs)]
  rw [List.map_map]
  have hfun : (String.mk ∘ String.toList) = id := funext fun s => rfl
  rw [hfun, List.map_id]

/-- Claim C3, counterexample: the rewrite renames every segment equal
to "definitions", not only the first one after the leading marker: a
pointer whose second segment is also literally "definitions" has that
segment renamed too, while the claim requires it to pass through
unaltered. -/
theorem c3_counterexample_later_definitions_segment_renamed :
    openapi_ref_location "#/definitions/definitions" =
      "#/components/schemas/schemas" ∧
    ("#/components/schemas/schemas" : String) ≠
      "#/components/schemas/definitions" :=
  ⟨rfl, by decide⟩

/-- Claim C3, amended: for every internal pointer, the rewritten
pointer consists of the namespace prefix followed by the original
segments after the leading marker, where every segment literally equal
to "definitions" (not only the first) is renamed to "schemas" and all
other segments are unaltered. -/
theorem c3_ref_rewrite_renames_each_definitions_segment
    (r : String) (segs : List String)
    (h : strSplit '/' r = "#" :: segs) :
    strSplit '/' (openapi_ref_location r) =
      "#" :: "components" ::
        segs.map (fun e => if e = "definitions" then "schemas" else e) := by
  have hsegs : ∀ e ∈ segs, '/' ∉ e.toList := by
    intro e he
    have hmem : e ∈ strSplit '/' r := by
      rw [h]
      exact List.mem_cons_of_mem _ he
    unfold strSplit at hmem
    obtain ⟨p, hp, rfl⟩ := List.mem_map.mp hmem
    exact splitOnChar_no_sep '/' _ p hp
  unfold openapi_ref_location
  rw [h]
  show strSplit '/' (strJoin "/" ("#" :: "components" ::
    (("#" :: segs).drop 1).map _)) = _
  rw [List.drop_one, List.tail_cons]
  apply strSplit_strJoin
  · simp
  · intro s hs
    rcases List.mem_cons.mp hs with rfl | hs
    · decide
    rcases List.mem_cons.mp hs with rfl | hs
    · decide
    obtain ⟨e, he, rfl⟩ := List.mem_map.mp hs
    by_cases hd : e = "definitions"
    · rw [if_pos hd]; decide
    · rw [if_neg hd]; exact hsegs e he

/-- Witness for the amended claim C3 at a concrete pointer. -/
theorem c3_witness :
    strSplit '/' (openapi_ref_location "#/definitions/Pet") =
      "#" :: "components" ::
        (["definitions", "Pet"].map
          fun e => if e = "definitions" then "schemas" else e) :=
  c3_ref_rewrite_renames_each_definitions_segment
    "#/definitions/Pet" ["definitions", "Pet"] rfl

theorem responsesEntriesToOpenapi_forall2 :
    ∀ l l2, responsesEntriesToOpenapi l = some l2 →
      List.Forall₂ (fun src tgt => src.1 = tgt.1 ∧
        refOrResponseToOpenapi src.2 = some tgt.2) l l2 := by
  intro l
  induction l with
  | nil =>
    intro l2 h
    simp only [responsesEntriesToOpenapi, Option.some.injEq] at h
    subst h
    exact List.Forall₂.nil
  | cons kv rest ih =>
    intro l2 h
    obtain ⟨k, v⟩ := kv
    simp only [responsesEntriesToOpenapi, Option.bind_eq_bind,
      Option.bind_eq_some, Option.pure_def, Option.some.injEq] at h
    obtain ⟨cv, hcv, others, hothers, hl2⟩ := h
    subst hl2
    exact List.Forall₂.cons ⟨rfl, hcv⟩ (ih others hothers)

theorem headersToOpenapi_forall2 :
    ∀ l l2, headersToOpenapi l = some l2 →
      List.Forall₂ (fun src tgt => src.1 = tgt.1 ∧
        ParameterHeader.toOpenapi src.2 = some tgt.2) l l2 := by
  intro l
  induction l with
  | nil =>
    intro l2 h
    simp only [headersToOpenapi, Option.some.injEq] at h
    subst h
    exact List.Forall₂.nil
  | cons kv rest ih =>
    intro l2 h
    obtain ⟨k, v⟩ := kv
    simp only [headersToOpenapi, Option.bind_eq_bind,
      Option.bind_eq_some, Option.pure_def, Option.some.injEq] at h
    obtain ⟨cv, hcv, others, hothers, hl2⟩ := h
    subst hl2
    exact List.Forall₂.cons ⟨rfl, hcv⟩ (ih others hothers)

/-- Claim C5, counterexample: the default entry is not mapped into the
target responses — a collection whose only entry is the default entry
converts to an empty target responses map. -/
theorem c5_counterexample_default_entry_dropped :
    Responses.toOpenapi c5DefaultOnlyResponses = some ⟨[]⟩ ∧
    c5DefaultOnlyResponses.default ≠ none :=
  ⟨rfl, by simp [c5DefaultOnlyResponses]⟩

/-- Claim C5, amended: converting a responses collection maps every
entry of the status-code-keyed mapping (key-preserving, in order) into
the target responses, while the default entry is discarded (the
conversion does not depend on it); each converted response carries a
single application/json content entry populated with the converted
schema (if present) and the named examples (if present), and its
headers converted one-to-one. -/
theorem c5_responses_conversion :
    (∀ entries d ext, Responses.toOpenapi ⟨entries, d, ext⟩ =
      Responses.toOpenapi ⟨entries, none, none⟩) ∧
    (∀ rs out, Responses.toOpenapi rs = some out →
      List.Forall₂ (fun src tgt => src.1 = tgt.1 ∧
        refOrResponseToOpenapi src.2 = some tgt.2)
        rs.responses out.responses) ∧
    (∀ r convR, Response.toOpenapi r = some convR →
      convR.description = r.description ∧
      convR.content = [("application/json",
        { schema := r.schema.map refOrSchemaToOpenapi
          examples := (r.examples.getD []).map fun kv =>
            (kv.1, openapi.RefOr.t ⟨some kv.2⟩) })] ∧
      List.Forall₂ (fun src tgt => src.1 = tgt.1 ∧
        ParameterHeader.toOpenapi src.2 = some tgt.2)
        (r.headers.getD []) convR.headers) := by
  refine ⟨fun entries d ext => rfl, ?_, ?_⟩
  · intro rs out h
    obtain ⟨entries, d, ext⟩ := rs
    simp only [Responses.toOpenapi, Option.bind_eq_bind, Option.bind_eq_some,
      Option.pure_def, Option.some.injEq] at h
    obtain ⟨l2, hl2, hout⟩ := h
    subst hout
    exact responsesEntriesToOpenapi_forall2 entries l2 hl2
  · intro r convR h
    obtain ⟨desc, schema, headers, examples, ext⟩ := r
    simp only [Response.toOpenapi, Option.bind_eq_bind, Option.bind_eq_some,
      Option.pure_def, Option.some.injEq] at h
    obtain ⟨hs, hhs, hout⟩ := h
    subst hout
    refine ⟨rfl, ?_, ?_⟩
    · cases examples <;> rfl
    · exact headersToOpenapi_forall2 _ hs hhs

/-- Witness for the amended claim C5 at concrete collections. -/
theorem c5_witness :
    List.Forall₂ (fun src tgt => src.1 = tgt.1 ∧
        refOrResponseToOpenapi src.2 = some tgt.2)
      c5StatusResponses.responses c5StatusResponsesOut.responses ∧
    (c5StatusResponseOut.description = c5StatusResponse.description ∧
     c5StatusResponseOut.content = [("application/json",
       { schema := c5StatusResponse.schema.map refOrSchemaToOpenapi
         examples := (c5StatusResponse.examples.getD []).map fun kv =>
           (kv.1, openapi.RefOr.t ⟨some kv.2⟩) })] ∧
     List.Forall₂ (fun src tgt => src.1 = tgt.1 ∧
        ParameterHeader.toOpenapi src.2 = some tgt.2)
      (c5StatusResponse.headers.getD []) c5StatusResponseOut.headers) :=
  ⟨c5_responses_conversion.2.1 c5StatusResponses c5StatusResponsesOut rfl,
   c5_responses_conversion.2.2 c5StatusResponse c5StatusResponseOut rfl⟩

/-- Claim C6: a true nullability extension widens the converted type
tag to the two-element set of the declared type and the null type
(rather than a boolean nullable attribute), and an absent or false
flag leaves the single declared type: stated for nullable_or_type
itself, for the generic parameter shape, and for the object and array
definition shapes (the allOf shape carries no type tag). -/
theorem c6_nullable_widens_type_tag :
    (∀ t, nullable_or_type true t = .array [t, .null]) ∧
    (∀ t, nullable_or_type false t = .type t) ∧
    (∀ g s, (ParameterGeneric.extensions g).nullable = true →
      ParameterGeneric.toSchema g = some s →
      s.typeTag = some (.array [g.schemaType, .null])) ∧
    (∀ g s, (ParameterGeneric.extensions g).nullable = false →
      ParameterGeneric.toSchema g = some s →
      s.typeTag = some (.type g.schemaType)) ∧
    (∀ o : spec.Object spec.Schema, ∀ t, o.schemaType = .type t →
      o.extensions.nullable = true →
      (schemaToOpenapi (.object o)).typeTag = some (.array [t, .null])) ∧
    (∀ o : spec.Object spec.Schema, o.extensions.nullable = false →
      (schemaToOpenapi (.object o)).typeTag = some o.schemaType) ∧
    (∀ a : spec.Array spec.Schema, a.extensions.nullable = true →
      (schemaToOpenapi (.array a)).typeTag =
        some (.array [.array, .null])) ∧
    (∀ a : spec.Array spec.Schema, a.extensions.nullable = false →
      (schemaToOpenapi (.array a)).typeTag = some (.type .array)) := by
  refine ⟨fun t => rfl, fun t => rfl, ?_, ?_, ?_, ?_, ?_, ?_⟩
  · intro g s h1 h2
    obtain ⟨st, fmt, items, aev, cf, df, mx, emx, mn, emn, mxl, mnl, pat,
      mxi, mni, uni, env, mo, ext⟩ := g
    simp only [ParameterGeneric.extensions] at h1
    simp only [ParameterGeneric.schemaType]
    cases st
    case array =>
      cases items with
      | none => simp [ParameterGeneric.toSchema] at h2
      | some inner =>
        cases hi : inner.toSchema with
        | none => simp [ParameterGeneric.toSchema, hi] at h2
        | some innerSchema =>
          simp only [ParameterGeneric.toSchema, hi, Option.bind_eq_bind,
            Option.some_bind, Option.pure_def, Option.some.injEq] at h2
          subst h2
          simp [openapi.Schema.typeTag, nullable_or_type, h1]
    all_goals
      simp only [ParameterGeneric.toSchema, Option.some.injEq] at h2
    all_goals
      subst h2
    all_goals
      simp [openapi.Schema.typeTag, nullable_or_type, h1]
  · intro g s h1 h2
    obtain ⟨st, fmt, items, aev, cf, df, mx, emx, mn, emn, mxl, mnl, pat,
      mxi, mni, uni, env, mo, ext⟩ := g
    simp only [ParameterGeneric.extensions] at h1
    simp only [ParameterGeneric.schemaType]
    cases st
    case array =>
      cases items with
      | none => simp [ParameterGeneric.toSchema] at h2
      | some inner =>
        cases hi : inner.toSchema with
        | none => simp [ParameterGeneric.toSchema, hi] at h2
        | some innerSchema =>
          simp only [ParameterGeneric.toSchema, hi, Option.bind_eq_bind,
            Option.some_bind, Option.pure_def, Option.some.injEq] at h2
          subst h2
          simp [openapi.Schema.typeTag, nullable_or_type, h1]
    all_goals
      simp only [ParameterGeneric.toSchema, Option.some.injEq] at h2
    all_goals
      subst h2
    all_goals
      simp [openapi.Schema.typeTag, nullable_or_type, h1]
  · intro o t ht h1
    obtain ⟨fmt, title, desc, df, mo, mx, emx, mn, emn, mxl, mnl, pat, mxp,
      mnp, req, env, st, props, ap, ro, xml, ex, ext⟩ := o
    simp only [spec.Object.schemaType] at ht
    subst ht
    simp only [spec.Object.extensions] at h1
    simp [schemaToOpenapi, openapi.Schema.typeTag, openapi.nullableWiden, h1]
  · intro o h1
    obtain ⟨fmt, title, desc, df, mo, mx, emx, mn, emn, mxl, mnl, pat, mxp,
      mnp, req, env, st, props, ap, ro, xml, ex, ext⟩ := o
    simp only [spec.Object.extensions] at h1
    simp [schemaToOpenapi, openapi.Schema.typeTag, openapi.nullableWiden, h1]
  · intro a h1
    obtain ⟨st, title, items, desc, ex, df, mxi, mni, uniq, xml, ext⟩ := a
    simp only [spec.Array.extensions] at h1
    simp [schemaToOpenapi, openapi.Schema.typeTag, openapi.nullableWiden, h1]
  · intro a h1
    obtain ⟨st, title, items, desc, ex, df, mxi, mni, uniq, xml, ext⟩ := a
    simp only [spec.Array.extensions] at h1
    simp [schemaToOpenapi, openapi.Schema.typeTag, openapi.nullableWiden, h1]

/-- Witness for claim C6 at concrete nullable schemas. -/
theorem c6_witness :
    c6ParamGenericOut.typeTag = some (.array [.string, .null]) ∧
    (schemaToOpenapi (.object c6Object)).typeTag =
      some (.array [.string, .null]) ∧
    (schemaToOpenapi (.array c6Array)).typeTag =
      some (.array [.array, .null]) :=
  ⟨c6_nullable_widens_type_tag.2.2.1 c6ParamGeneric c6ParamGenericOut rfl rfl,
   c6_nullable_widens_type_tag.2.2.2.2.1 c6Object .string rfl rfl,
   c6_nullable_widens_type_tag.2.2.2.2.2.2.1 c6Array rfl⟩

theorem bodylike_tryInto_error :
    ∀ p, isBodyLike p = true → p.tryIntoOpenapi = some (.error ⟨⟩) := by
  intro p h
  obtain ⟨name, desc, req, pin, ext⟩ := p
  cases pin
  case formData g => rfl
  case body b => rfl
  all_goals simp [isBodyLike] at h

theorem mem_okParamConversions :
    ∀ params q, q ∈ okParamConversions params →
      ∃ p, p ∈ params ∧ isBodyLike p = false ∧
        p.tryIntoOpenapi = some (.ok q) := by
  intro params
  induction params with
  | nil =>
    intro q hq
    simp [okParamConversions] at hq
  | cons p rest ih =>
    intro q hq
    cases ht : p.tryIntoOpenapi with
    | none =>
      simp only [okParamConversions, ht] at hq
      obtain ⟨p2, hp2, hb2, ht2⟩ := ih q hq
      exact ⟨p2, List.mem_cons_of_mem _ hp2, hb2, ht2⟩
    | some r =>
      cases r with
      | error e =>
        simp only [okParamConversions, ht] at hq
        obtain ⟨p2, hp2, hb2, ht2⟩ := ih q hq
        exact ⟨p2, List.mem_cons_of_mem _ hp2, hb2, ht2⟩
      | ok q0 =>
        simp only [okParamConversions, ht] at hq
        rcases List.mem_cons.mp hq with rfl | hq
        · refine ⟨p, List.mem_cons_self _ _, ?_, ht⟩
          cases hb : isBodyLike p
          · rfl
          · rw [bodylike_tryInto_error p hb] at ht
            simp at ht
        · obtain ⟨p2, hp2, hb2, ht2⟩ := ih q hq
          exact ⟨p2, List.mem_cons_of_mem _ hp2, hb2, ht2⟩

theorem operationParamsFold_spec :
    ∀ params rb0 acc out,
      operationParamsFold params rb0 acc = some out →
      out.2 = acc ++ okParamConversions params ∧
      out.1 = (match lastBodyLike params with
               | none => rb0
               | some p => bodyLikeRequestBody p) := by
  intro params
  induction params with
  | nil =>
    intro rb0 acc out h
    simp only [operationParamsFold, Option.some.injEq] at h
    subst h
    simp [okParamConversions, lastBodyLike]
  | cons p rest ih =>
    intro rb0 acc out h
    obtain ⟨name, desc, req, pin, ext⟩ := p
    cases pin with
    | formData g =>
      cases hg : g.toSchema with
      | none => simp [operationParamsFold, hg] at h
      | some s =>
        simp only [operationParamsFold, hg] at h
        obtain ⟨h2, h1⟩ := ih _ _ _ h
        constructor
        · rw [h2]
          simp [okParamConversions, Parameter.tryIntoOpenapi]
        · rw [h1]
          cases hl : lastBodyLike rest with
          | some q => simp [lastBodyLike, hl]
          | none => simp [lastBodyLike, hl, isBodyLike, bodyLikeRequestBody, hg]
    | body b =>
      simp only [operationParamsFold] at h
      obtain ⟨h2, h1⟩ := ih _ _ _ h
      constructor
      · rw [h2]
        simp [okParamConversions, Parameter.tryIntoOpenapi]
      · rw [h1]
        cases hl : lastBodyLike rest with
        | some q => simp [lastBodyLike, hl]
        | none => simp [lastBodyLike, hl, isBodyLike, bodyLikeRequestBody]
    | query g =>
      cases hg : g.toSchema with
      | none => simp [operationParamsFold, Parameter.tryIntoOpenapi, hg] at h
      | some s =>
        simp only [operationParamsFold, Parameter.tryIntoOpenapi, hg,
          Option.map_some'] at h
        obtain ⟨h2, h1⟩ := ih _ _ _ h
        constructor
        · rw [h2]
          simp [okParamConversions, Parameter.tryIntoOpenapi, hg,
            List.append_assoc]
        · rw [h1]
          cases hl : lastBodyLike rest with
          | some q => simp [lastBodyLike, hl]
          | none => simp [lastBodyLike, hl, isBodyLike]
    | header g =>
      cases hg : g.toSchema with
      | none => simp [operationParamsFold, Parameter.tryIntoOpenapi, hg] at h
      | some s =>
        simp only [operationParamsFold, Parameter.tryIntoOpenapi, hg,
          Option.map_some'] at h
        obtain ⟨h2, h1⟩ := ih _ _ _ h
        constructor
        · rw [h2]
          simp [okParamConversions, Parameter.tryIntoOpenapi, hg,
            List.append_assoc]
        · rw [h1]
          cases hl : lastBodyLike rest with
          | some q => simp [lastBodyLike, hl]
          | none => simp [lastBodyLike, hl, isBodyLike]
    | path g =>
      cases hg : g.toSchema with
      | none => simp [operationParamsFold, Parameter.tryIntoOpenapi, hg] at h
      | some s =>
        simp only [operationParamsFold, Parameter.tryIntoOpenapi, hg,
          Option.map_some'] at h
        obtain ⟨h2, h1⟩ := ih _ _ _ h
        constructor
        · rw [h2]
          simp [okParamConversions, Parameter.tryIntoOpenapi, hg,
            List.append_assoc]
        · rw [h1]
          cases hl : lastBodyLike rest with
          | some q => simp [lastBodyLike, hl]
          | none => simp [lastBodyLike, hl, isBodyLike]

/-- Claim C7: FormData and Body parameters never appear in the output
parameter list (every output parameter comes from a successful
try-conversion of a non-body-like parameter); each FormData/Body
parameter is converted into a request body, and the operation carries
at most one request body, equal to the conversion of the last
FormData/Body parameter in list order. -/
theorem c7_formdata_body_become_request_body
    (op : Operation) (params : List Parameter) (out : openapi.Operation)
    (hp : op.parameters = some params)
    (h : Operation.toOpenapi op = some out) :
    out.parameters = some (okParamConversions params) ∧
    (∀ q ∈ okParamConversions params, ∃ p, p ∈ params ∧
      isBodyLike p = false ∧ p.tryIntoOpenapi = some (.ok q)) ∧
    out.requestBody = (match lastBodyLike params with
                       | none => none
                       | some p => bodyLikeRequestBody p) := by
  unfold Operation.toOpenapi at h
  rw [hp] at h
  simp only [Option.bind_eq_bind, Option.bind_eq_some, Option.pure_def,
    Option.some.injEq] at h
  obtain ⟨resp, hresp, folded, hfold, hout⟩ := h
  subst hout
  obtain ⟨h2, h1⟩ := operationParamsFold_spec params none [] folded hfold
  refine ⟨?_, fun q hq => mem_okParamConversions params q hq, h1⟩
  rw [h2]
  simp

/-- Witness for claim C7 at the three-parameter operation. -/
theorem c7_witness :
    c7OpOut.parameters =
      some (okParamConversions [formDataParam, goodQueryParam, bodyParam]) ∧
    c7OpOut.requestBody =
      (match lastBodyLike [formDataParam, goodQueryParam, bodyParam] with
       | none => none
       | some p => bodyLikeRequestBody p) :=
  ⟨(c7_formdata_body_become_request_body c7Op
      [formDataParam, goodQueryParam, bodyParam] c7OpOut rfl rfl).1,
   (c7_formdata_body_become_request_body c7Op
      [formDataParam, goodQueryParam, bodyParam] c7OpOut rfl rfl).2.2⟩

theorem pathItemParamsFilter_filter_bodylike :
    ∀ ps, pathItemParamsFilter (ps.filter fun p => !isBodyLike p) =
      pathItemParamsFilter ps := by
  intro ps
  induction ps with
  | nil => rfl
  | cons p rest ih =>
    cases hb : isBodyLike p with
    | true =>
      have ht := bodylike_tryInto_error p hb
      rw [List.filter_cons_of_neg (by simp [hb])]
      rw [ih]
      simp only [pathItemParamsFilter, ht]
      cases hfr : pathItemParamsFilter rest <;> simp [hfr]
    | false =>
      rw [List.filter_cons_of_pos (by simp [hb])]
      simp only [pathItemParamsFilter]
      rw [ih]

/-- Claim C10: shared path-item parameters whose location is FormData
or Body are silently removed: their try-conversion is exactly the
dropped error, and converting a path item with them filtered out gives
the same result as converting the path item itself — so they appear in
no shared parameter list, produce no request body on any operation,
and never cause a failure. -/
theorem c10_shared_bodylike_parameters_removed :
    (∀ p, isBodyLike p = true → p.tryIntoOpenapi = some (.error ⟨⟩)) ∧
    (∀ item : PathItem,
      PathItem.toOpenapi
        { item with
          parameters :=
            item.parameters.map (fun ps => ps.filter fun p => !isBodyLike p) } =
      PathItem.toOpenapi item) := by
  refine ⟨bodylike_tryInto_error, ?_⟩
  intro item
  obtain ⟨g, pu, po, d, o, hd, pa, tr, params⟩ := item
  cases params with
  | none => rfl
  | some ps =>
    simp only [PathItem.toOpenapi, Option.map_some']
    rw [pathItemParamsFilter_filter_bodylike]

/-- Witness for claim C10 at a concrete path item. -/
theorem c10_witness :
    formDataParam.tryIntoOpenapi = some (.error ⟨⟩) ∧
    PathItem.toOpenapi
      { c10Item with
        parameters :=
          c10Item.parameters.map (fun ps => ps.filter fun p => !isBodyLike p) } =
    PathItem.toOpenapi c10Item :=
  ⟨c10_shared_bodylike_parameters_removed.1 formDataParam rfl,
   c10_shared_bodylike_parameters_removed.2 c10Item⟩
